/-
Verification of the diskstore key-value mapping (src/diskstore/diskread.py,
src/diskstore/diskstore.py, src/diskstore/const.py) against its
natural-language specification.

Shallow embedding conventions:
* An SQLite table is a list of rows kept in ascending rowid order; a fresh
  rowid is one past the largest ever assigned (`nextId`), so appending a new
  row keeps the list sorted by rowid.  ORDER BY rowid ASC is therefore the
  list itself and ORDER BY rowid DESC its reverse.
* Engine-native storage classes for keys and fields are modelled by `Lit`
  (blob / text / integer).  REAL keys are left out: IEEE-double behaviour is
  floating point and none of the examined claims depends on it.
* Python exceptions become `Except Err`; `Err` distinguishes the exception
  classes the claims talk about.
* A supplied value carries its field tuple plus the result of
  `isinstance(value, self._value_class)` as a boolean, which is all the code
  ever inspects about it.
* Wall-clock time in the transact/BEGIN retry loop is measured in integer
  milliseconds: the loop sleeps 0.001 s between attempts, so attempt i
  happens i ms after the deadline was computed.
-/
import Mathlib

namespace Diskstore

/-- SQLite storage classes used for keys and value fields (REAL omitted,
see header). Distinct constructors never compare equal, matching SQLite
comparison across BLOB / TEXT / INTEGER storage classes. -/
inductive Lit where
  | blob : List Nat → Lit
  | text : String → Lit
  | int : Int → Lit
deriving DecidableEq

/-- One table row: the rowid, the `_key` column and the value columns in
schema order. -/
structure Row where
  rowid : Nat
  key : Lit
  value : List Lit
deriving DecidableEq

/-- A backing table: rows in ascending rowid order plus the next rowid the
engine would assign. -/
structure Table where
  rows : List Row
  nextId : Nat
deriving DecidableEq

def Table.empty : Table := ⟨[], 1⟩

/-- GET statement: SELECT fields FROM t WHERE _key = ? LIMIT 1. -/
def tGet (t : Table) (k : Lit) : Option (List Lit) :=
  (t.rows.find? (fun r => r.key == k)).map Row.value

/-- CONTAINS statement: SELECT _key FROM t WHERE _key = ? LIMIT 1, taken as
a boolean (DiskRead.__contains__ returns bool(rows)). -/
def tContains (t : Table) (k : Lit) : Bool :=
  t.rows.any (fun r => r.key == k)

/-- ITER statement: SELECT _key FROM t ORDER BY rowid ASC. -/
def tIter (t : Table) : List Lit :=
  t.rows.map Row.key

/-- REVERSED statement: SELECT _key FROM t ORDER BY rowid DESC. -/
def tReversed (t : Table) : List Lit :=
  (t.rows.map Row.key).reverse

/-- COUNT statement. -/
def tCount (t : Table) : Nat :=
  t.rows.length

/-- SET statement: INSERT INTO t(_key, fields) VALUES (?, ...) ON CONFLICT
(_key) DO UPDATE SET field = excluded.field, ... (upsert: the conflicting
row keeps its rowid and key, all value columns are overwritten).  This is
the statement against a table whose _key column is NOT an INTEGER PRIMARY
KEY (the default BLOB key type, or the TEXT/REAL key types), where every
fresh insert is assigned a fresh rowid larger than all existing ones.  A
table created with key_type=int instead aliases _key to the rowid; that
variant is modelled separately by tSetInt below. -/
def tSet (t : Table) (k : Lit) (vs : List Lit) : Table :=
  if t.rows.any (fun r => r.key == k) then
    ⟨t.rows.map (fun r => if r.key == k then ⟨r.rowid, r.key, vs⟩ else r), t.nextId⟩
  else
    ⟨t.rows ++ [⟨t.nextId, k, vs⟩], t.nextId + 1⟩

/-- ADD statement: INSERT INTO t(_key, fields) VALUES (?, ...) ON CONFLICT
DO NOTHING RETURNING _key.  The second component is the list of RETURNING
rows (the stored keys).  A null key is only legal for an INTEGER PRIMARY
KEY table, where the engine auto-assigns the next rowid (one past the
largest in use) as the key.  As with tSet, the some-key branch models the
non-INTEGER-PRIMARY-KEY table, where a fresh insert's rowid is fresh and
monotone rather than equal to an explicit integer key; nothing the add
claim states depends on row placement, only on membership and the
returned key. -/
def tAdd (t : Table) (k : Option Lit) (vs : List Lit) : Table × List Lit :=
  match k with
  | some key =>
    if t.rows.any (fun r => r.key == key) then (t, [])
    else (⟨t.rows ++ [⟨t.nextId, key, vs⟩], t.nextId + 1⟩, [key])
  | none =>
    (⟨t.rows ++ [⟨t.nextId, Lit.int t.nextId, vs⟩], t.nextId + 1⟩,
      [Lit.int t.nextId])

/-- DELETE statement: DELETE FROM t WHERE _key = ? RETURNING _key. -/
def tDelete (t : Table) (k : Lit) : Table × List Lit :=
  (⟨t.rows.filter (fun r => !(r.key == k)), t.nextId⟩,
    (t.rows.filter (fun r => r.key == k)).map Row.key)

/-- POPITEM statement: SELECT _key, fields FROM t ORDER BY rowid DESC
LIMIT 1 — the last row in rowid order. -/
def tPopSelect (t : Table) : Option Row :=
  t.rows.getLast?

/-- The Python exception classes the claims mention. -/
inductive Err where
  | keyError
  | valueError
  | typeError
deriving DecidableEq

/-- A value as supplied by the caller: its field tuple plus the outcome of
isinstance(value, self._value_class), the only property of the object the
store's validation inspects. -/
structure PyValue where
  fields : List Lit
  isInstance : Bool
deriving DecidableEq

/-- DiskStore._validate_value: returns the value when it is an instance of
the declared value class, otherwise raises ValueError. -/
def validate_value (v : PyValue) : Except Err PyValue :=
  if v.isInstance then Except.ok v else Except.error Err.valueError

/-- DiskRead.__getitem__: GET, raising KeyError when no row matched,
otherwise rebuilding the value from the row's fields. -/
def getitem (t : Table) (k : Lit) : Except Err (List Lit) :=
  match tGet t k with
  | none => Except.error Err.keyError
  | some vs => Except.ok vs

/-- DiskStore.__setitem__: validate the value, then execute SET. -/
def setitem (t : Table) (k : Lit) (v : PyValue) : Except Err Table :=
  match validate_value v with
  | Except.error e => Except.error e
  | Except.ok v => Except.ok (tSet t k v.fields)

/-- DiskStore.add: validate, execute ADD, return None when no RETURNING row
came back (key existed) and the returned key otherwise. -/
def add (t : Table) (k : Option Lit) (v : PyValue) :
    Except Err (Table × Option Lit) :=
  match validate_value v with
  | Except.error e => Except.error e
  | Except.ok v =>
    let res := tAdd t k v.fields
    match res.2 with
    | [] => Except.ok (res.1, none)
    | r :: _ => Except.ok (res.1, some r)

/-- DiskStore.__delitem__: DELETE, raising KeyError when nothing was
returned. -/
def delitem (t : Table) (k : Lit) : Except Err Table :=
  let res := tDelete t k
  if res.2.isEmpty then Except.error Err.keyError else Except.ok res.1

/-- Body of DiskStore.popitem (run inside transact(retry=True)): select the
most recent row, raise KeyError when the table is empty, otherwise delete
that key and return the pair. -/
def popitem (t : Table) : Except Err (Table × (Lit × List Lit)) :=
  match tPopSelect t with
  | none => Except.error Err.keyError
  | some row => Except.ok ((tDelete t row.key).1, (row.key, row.value))

/-- DiskStore.setdefault: return the existing value when present; on
KeyError validate and add the default when it is not None; return the
default. -/
def setdefault (t : Table) (k : Lit) (default : Option PyValue) :
    Except Err (Table × Option PyValue) :=
  match tGet t k with
  | some vs => Except.ok (t, some ⟨vs, true⟩)
  | none =>
    match default with
    | none => Except.ok (t, none)
    | some d =>
      match validate_value d with
      | Except.error e => Except.error e
      | Except.ok d => Except.ok ((tAdd t (some k) d.fields).1, some d)

/-- DiskStore.update on an already-normalized pair sequence: executemany of
the SET statement inside one transact(retry=True) scope.  Note the source
performs no _validate_value call on this path; each value contributes the
parameter tuple (key, *value). -/
def update (t : Table) (pairs : List (Lit × PyValue)) : Except Err Table :=
  Except.ok (pairs.foldl (fun acc p => tSet acc p.1 p.2.fields) t)

/-- Python-level types a value-class field annotation can carry. -/
inductive PyType where
  | strT
  | intT
  | floatT
  | bytesT
  | otherT
deriving DecidableEq

/-- The shape of a value class the schema derivation inspects: the ordered
_fields tuple and the optional __annotations__ mapping (empty list when the
class has no or empty annotations). -/
structure ValueClass where
  fields : List String
  annotations : List (String × PyType)
deriving DecidableEq

/-- DiskRead.get_fields: the ordered column names, raising ValueError (the
error the spec's taxonomy calls SchemaError) when a field is named like the
reserved key column. -/
def get_fields (vc : ValueClass) : Except Err (List String) :=
  if vc.fields.contains "_key" then Except.error Err.valueError
  else Except.ok vc.fields

/-- Storage type chosen for an annotated field type. -/
def colType : PyType → String
  | PyType.strT => "TEXT"
  | PyType.intT => "INTEGER"
  | PyType.floatT => "REAL"
  | PyType.bytesT => "BLOB"
  | PyType.otherT => "BLOB"

/-- type_annotations.get(c_name, bytes): types are optional. -/
def annGet (anns : List (String × PyType)) (name : String) : PyType :=
  match anns.find? (fun p => p.1 == name) with
  | some p => p.2
  | none => PyType.bytesT

/-- DiskStore.get_field_types: one storage type per field; with no
annotations present every column is BLOB. -/
def get_field_types (vc : ValueClass) : List String :=
  if !vc.annotations.isEmpty then
    vc.fields.map (fun n => colType (annGet vc.annotations n))
  else
    vc.fields.map (fun _ => "BLOB")

/-- DiskRead.__init__ table name selection: the value class name when no
tablename was supplied or when the supplied one is exactly the reserved
string, else the supplied tablename. -/
def effective_tablename (valueClassName : String) (tablename : Option String) :
    String :=
  match tablename with
  | none => valueClassName
  | some t => if t == "_Settings" then valueClassName else t

/-- const.TIMEOUT = 60.0 seconds, in milliseconds. -/
def TIMEOUT_MS : Nat := 60000

/-- sleep(0.001) in the transact retry loop, in milliseconds. -/
def SLEEP_MS : Nat := 1

/-- Engine contention pattern in which the first n BEGIN IMMEDIATE attempts
report busy and every later attempt succeeds. -/
def busyUntil (n : Nat) : Nat → Bool := fun i => i < n

/-- The BEGIN IMMEDIATE loop of DiskStore.transact.  `busy i` tells whether
the engine reports write contention on the i-th attempt; attempt i happens
at wall clock SLEEP_MS * i after `retry_until = time() + TIMEOUT` was
computed (the deadline uses the module constant TIMEOUT).  `Except.ok i`
means BEGIN succeeded on attempt i, `Except.error i` that BusyError
propagates from attempt i. -/
def beginLoop (busy : Nat → Bool) (retry : Bool) (i : Nat) : Except Nat Nat :=
  if busy i then
    if h : retry = true ∧ SLEEP_MS * i < TIMEOUT_MS then
      beginLoop busy retry (i + 1)
    else
      Except.error i
  else
    Except.ok i
  termination_by TIMEOUT_MS + 1 - i
  decreasing_by
    have h2 := h.2
    simp only [SLEEP_MS, TIMEOUT_MS, one_mul] at h2
    simp only [TIMEOUT_MS]
    omega

/-- Modelled from the spec: the same retry loop but with the wall-clock
deadline equal to the store's configured timeout ("retries until a
wall-clock deadline (the store's configured timeout) elapses"), given here
in milliseconds.  Used only to compare the spec's reading with the
source's loop, whose deadline is the module constant. -/
def beginLoopSpec (storeTimeoutMs : Nat) (busy : Nat → Bool) (retry : Bool)
    (i : Nat) : Except Nat Nat :=
  if busy i then
    if h : retry = true ∧ SLEEP_MS * i < storeTimeoutMs then
      beginLoopSpec storeTimeoutMs busy retry (i + 1)
    else
      Except.error i
  else
    Except.ok i
  termination_by storeTimeoutMs + 1 - i
  decreasing_by
    have h2 := h.2
    simp only [SLEEP_MS, one_mul] at h2
    omega

/-- The connection-level state one store/one thread sees: the committed
table, the open engine transaction's working view (none when no
transaction is open) and DiskStore._txn_id. -/
structure DBState where
  committed : Table
  pending : Option Table
  txnId : Option Nat
deriving DecidableEq

/-- A write statement executed against the connection. -/
inductive WriteOp where
  | setW : Lit → List Lit → WriteOp
  | delW : Lit → WriteOp
deriving DecidableEq

def applyOp (t : Table) : WriteOp → Table
  | WriteOp.setW k vs => tSet t k vs
  | WriteOp.delW k => (tDelete t k).1

/-- Executing one write statement: inside an open transaction it changes
the transaction's working view, otherwise it runs as its own implicit
single-statement transaction. -/
def execWrite (s : DBState) (w : WriteOp) : DBState :=
  match s.pending with
  | some t => { s with pending := some (applyOp t w) }
  | none => { s with committed := applyOp s.committed w }

/-- Real transaction-control statements issued to the engine. -/
inductive TxnEvent where
  | beginEvt
  | commitEvt
  | rollbackEvt
deriving DecidableEq

/-- A script a thread runs against one store: write statements, raising an
exception, sequencing, and a `with store.transact(...):` scope around a
sub-script. -/
inductive Stmt where
  | write : WriteOp → Stmt
  | raiseE : Stmt
  | seq : Stmt → Stmt → Stmt
  | scope : Stmt → Stmt
deriving DecidableEq

/-- Interpreter for a script run by thread `tid`, mirroring
DiskStore.transact: result is the final state, whether an exception is
propagating, and the real BEGIN/COMMIT/ROLLBACK statements issued.  A
scope whose thread already owns the transaction (tid == self._txn_id)
issues none of them; otherwise it executes BEGIN IMMEDIATE, records
_txn_id, and on exception rolls back / otherwise commits, clearing
_txn_id first. -/
def run (tid : Nat) : Stmt → DBState → DBState × Bool × List TxnEvent
  | Stmt.write w, s => (execWrite s w, false, [])
  | Stmt.raiseE, s => (s, true, [])
  | Stmt.seq a b, s =>
    let r1 := run tid a s
    if r1.2.1 then r1
    else
      let r2 := run tid b r1.1
      (r2.1, r2.2.1, r1.2.2 ++ r2.2.2)
  | Stmt.scope body, s =>
    if s.txnId = some tid then
      run tid body s
    else
      let r := run tid body ⟨s.committed, some s.committed, some tid⟩
      if r.2.1 then
        (⟨r.1.committed, none, none⟩, true,
          TxnEvent.beginEvt :: r.2.2 ++ [TxnEvent.rollbackEvt])
      else
        (⟨r.1.pending.getD r.1.committed, none, none⟩, false,
          TxnEvent.beginEvt :: r.2.2 ++ [TxnEvent.commitEvt])

/-- Scenario harness for the iteration-order claim: insert the given
(key, value) pairs in order through the SET statement. -/
def insertSeq (t : Table) (ps : List (Lit × List Lit)) : Table :=
  ps.foldl (fun acc p => tSet acc p.1 p.2) t

/-- A table created with key_type=int: the CREATE statement declares
_key INTEGER PRIMARY KEY NOT NULL, which SQLite aliases to the rowid (the
repository's own test states "integer primary key is rowid" and relies on
it).  A row's rowid therefore IS its integer key, and the engine keeps
rows in rowid = key order, so the model is a list of (key, value columns)
pairs kept sorted by key.  Inserting places the new row at its key-ordered
position. -/
def intInsert (k : Int) (vs : List Lit) :
    List (Int × List Lit) → List (Int × List Lit)
  | [] => [(k, vs)]
  | x :: xs => if k ≤ x.1 then (k, vs) :: x :: xs else x :: intInsert k vs xs

/-- SET statement against a key_type=int table: the upsert overwrites the
value columns of the conflicting row in place; a fresh key is inserted at
its key-ordered (= rowid-ordered) position. -/
def tSetInt (t : List (Int × List Lit)) (k : Int) (vs : List Lit) :
    List (Int × List Lit) :=
  if t.any (fun r => r.1 == k) then
    t.map (fun r => if r.1 == k then (r.1, vs) else r)
  else
    intInsert k vs t

/-- ITER statement against a key_type=int table: ORDER BY rowid ASC is
ascending key order, the order the sorted row list is kept in. -/
def tIterInt (t : List (Int × List Lit)) : List Int :=
  t.map Prod.fst

/-- Scenario harness: insert the given (key, value) pairs in order into a
key_type=int table through its SET statement. -/
def insertSeqInt (t : List (Int × List Lit)) (ps : List (Int × List Lit)) :
    List (Int × List Lit) :=
  ps.foldl (fun acc p => tSetInt acc p.1 p.2) t

/-- The upsert's row update keeps the row's key. -/
theorem key_of_upd (k : Lit) (vs : List Lit) (r : Row) :
    (if r.key == k then (⟨r.rowid, r.key, vs⟩ : Row) else r).key = r.key := by
  split <;> rfl

/-- In the conflict branch of SET, looking the key up afterwards finds the
overwritten field tuple. -/
theorem find?_map_upd (k : Lit) (vs : List Lit) :
    ∀ l : List Row, l.any (fun r => r.key == k) = true →
      ((l.map (fun r => if r.key == k then (⟨r.rowid, r.key, vs⟩ : Row) else r)).find?
        (fun r => r.key == k)).map Row.value = some vs := by
  intro l
  induction l with
  | nil => simp
  | cons r l ih =>
    intro hany
    by_cases hk : r.key = k
    · have hupd : (if r.key == k then (⟨r.rowid, r.key, vs⟩ : Row) else r)
          = ⟨r.rowid, r.key, vs⟩ := by simp [hk]
      simp only [List.map_cons, hupd]
      rw [List.find?_cons_of_pos]
      · rfl
      · simp [hk]
    · have hupd : (if r.key == k then (⟨r.rowid, r.key, vs⟩ : Row) else r) = r := by
        simp [hk]
      simp only [List.map_cons, hupd]
      rw [List.find?_cons_of_neg]
      · apply ih
        simp only [List.any_cons] at hany
        simpa [hk] using hany
      · simp [hk]

/-- Looking up a key absent from every row of l in l ++ [new row with that
key] finds the new row's fields. -/
theorem find?_append_fresh (k : Lit) (vs : List Lit) (rid : Nat)
    (l : List Row) (h : l.any (fun r => r.key == k) = false) :
    ((l ++ [(⟨rid, k, vs⟩ : Row)]).find? (fun r => r.key == k)).map Row.value
      = some vs := by
  have hnone : l.find? (fun r => r.key == k) = none := by
    rw [List.find?_eq_none]
    intro x hx hpx
    have : l.any (fun r => r.key == k) = true := List.any_eq_true.mpr ⟨x, hx, hpx⟩
    rw [h] at this
    exact Bool.false_ne_true this
  rw [List.find?_append, hnone]
  simp

/-- GET after SET at the same key returns exactly the written fields. -/
theorem tGet_tSet_self (t : Table) (k : Lit) (vs : List Lit) :
    tGet (tSet t k vs) k = some vs := by
  unfold tGet tSet
  by_cases h : t.rows.any (fun r => r.key == k) = true
  · simp only [h, if_true]
    exact find?_map_upd k vs t.rows h
  · have hf : t.rows.any (fun r => r.key == k) = false := by
      cases hb : t.rows.any (fun r => r.key == k)
      · rfl
      · exact absurd hb h
    simp only [hf, Bool.false_eq_true, if_false]
    exact find?_append_fresh k vs t.nextId t.rows hf

/-- CONTAINS after SET at the same key is true. -/
theorem tContains_tSet_self (t : Table) (k : Lit) (vs : List Lit) :
    tContains (tSet t k vs) k = true := by
  unfold tContains tSet
  by_cases h : t.rows.any (fun r => r.key == k) = true
  · simp only [h, if_true, List.any_map]
    have hcomp : ((fun r : Row => r.key == k) ∘
        (fun r : Row => if r.key == k then (⟨r.rowid, r.key, vs⟩ : Row) else r))
        = fun r : Row => r.key == k := by
      funext r
      simp only [Function.comp_apply, key_of_upd]
    rw [hcomp]
    exact h
  · have hf : t.rows.any (fun r => r.key == k) = false := by
      cases hb : t.rows.any (fun r => r.key == k)
      · rfl
      · exact absurd hb h
    simp [hf]

/-- Claim C4: for every store, key of an engine-native type and value that
is an instance of the declared value schema, immediately after set(k, v)
succeeds, get(k) returns a value field-for-field equal to v and the
containment check returns true. -/
theorem set_then_get_and_contains (t : Table) (k : Lit) (v : PyValue)
    (t2 : Table) (h : setitem t k v = Except.ok t2) :
    getitem t2 k = Except.ok v.fields ∧ tContains t2 k = true := by
  unfold setitem validate_value at h
  by_cases hv : v.isInstance
  · simp only [hv, if_true] at h
    have ht2 : tSet t k v.fields = t2 := by
      cases h
      rfl
    subst ht2
    refine ⟨?_, tContains_tSet_self t k v.fields⟩
    unfold getitem
    rw [tGet_tSet_self]
  · simp [hv] at h

theorem set_then_get_and_contains_witness :
    getitem (tSet Table.empty (Lit.int 1) [Lit.int 7]) (Lit.int 1) =
        Except.ok [Lit.int 7] ∧
    tContains (tSet Table.empty (Lit.int 1) [Lit.int 7]) (Lit.int 1) = true :=
  set_then_get_and_contains Table.empty (Lit.int 1) ⟨[Lit.int 7], true⟩
    (tSet Table.empty (Lit.int 1) [Lit.int 7]) rfl

/-- Claim C5: add(k, v) on an absent key inserts the pair and returns the
assigned key — the auto-assigned integer key (the fresh rowid) when the key
was omitted — while add(k, w) on a present key returns the absent marker
(None) and leaves the table, hence the stored value, unchanged. -/
theorem add_insert_if_absent (t : Table) (k : Lit) (v w : PyValue)
    (hv : v.isInstance = true) (hw : w.isInstance = true) :
    (tContains t k = false →
      ∃ t2, add t (some k) v = Except.ok (t2, some k) ∧
        getitem t2 k = Except.ok v.fields) ∧
    (tContains t (Lit.int t.nextId) = false →
      ∃ t2, add t none v = Except.ok (t2, some (Lit.int t.nextId)) ∧
        getitem t2 (Lit.int t.nextId) = Except.ok v.fields) ∧
    (tContains t k = true → add t (some k) w = Except.ok (t, none)) := by
  unfold tContains
  refine ⟨?_, ?_, ?_⟩
  · intro habs
    refine ⟨⟨t.rows ++ [⟨t.nextId, k, v.fields⟩], t.nextId + 1⟩, ?_, ?_⟩
    · unfold add validate_value tAdd
      simp [hv, habs]
    · unfold getitem tGet
      rw [find?_append_fresh k v.fields t.nextId t.rows habs]
  · intro habs
    refine ⟨⟨t.rows ++ [⟨t.nextId, Lit.int t.nextId, v.fields⟩], t.nextId + 1⟩,
      ?_, ?_⟩
    · unfold add validate_value tAdd
      simp [hv]
    · unfold getitem tGet
      rw [find?_append_fresh (Lit.int t.nextId) v.fields t.nextId t.rows habs]
  · intro hpres
    unfold add validate_value tAdd
    simp [hw, hpres]

theorem add_insert_if_absent_witness :
    (∃ t2, add Table.empty (some (Lit.int 5)) ⟨[Lit.int 1], true⟩ =
        Except.ok (t2, some (Lit.int 5)) ∧
      getitem t2 (Lit.int 5) = Except.ok [Lit.int 1]) ∧
    add (tSet Table.empty (Lit.int 5) [Lit.int 1]) (some (Lit.int 5))
        ⟨[Lit.int 2], true⟩ =
      Except.ok (tSet Table.empty (Lit.int 5) [Lit.int 1], none) := by
  constructor
  · exact (add_insert_if_absent Table.empty (Lit.int 5) ⟨[Lit.int 1], true⟩
      ⟨[Lit.int 2], true⟩ rfl rfl).1 rfl
  · exact (add_insert_if_absent (tSet Table.empty (Lit.int 5) [Lit.int 1])
      (Lit.int 5) ⟨[Lit.int 1], true⟩ ⟨[Lit.int 2], true⟩ rfl rfl).2.2 rfl

/-- Claim C6: on a non-empty store, popitem (run inside one
transact(retry=True) scope) reads and deletes the most-recently-inserted
row in rowid order and returns its (key, value) pair; on an empty store it
raises KeyError and performs no write.  The Nodup hypothesis is the
primary-key uniqueness invariant of the _key column. -/
theorem popitem_last_entry (t : Table) (hnd : (t.rows.map Row.key).Nodup) :
    (t.rows = [] → popitem t = Except.error Err.keyError) ∧
    (∀ r : Row, t.rows.getLast? = some r →
      popitem t = Except.ok (⟨t.rows.dropLast, t.nextId⟩, (r.key, r.value))) := by
  constructor
  · intro hnil
    unfold popitem tPopSelect
    rw [hnil]
    rfl
  · intro r hlast
    obtain ⟨l, hl⟩ := List.getLast?_eq_some_iff.mp hlast
    unfold popitem tPopSelect
    rw [hlast]
    dsimp only
    unfold tDelete
    have hdisj : ∀ x ∈ l, (x.key == r.key) = false := by
      intro x hx
      rw [hl, List.map_append, List.nodup_append] at hnd
      by_contra hne
      have hxk : x.key = r.key := by
        cases hb : x.key == r.key
        · exact absurd hb hne
        · exact eq_of_beq hb
      exact hnd.2.2 (List.mem_map_of_mem Row.key hx) (by simp [hxk])
    have hfilter : t.rows.filter (fun x => !(x.key == r.key)) = l := by
      rw [hl, List.filter_append]
      have h1 : l.filter (fun x => !(x.key == r.key)) = l :=
        List.filter_eq_self.mpr (fun a ha => by simp [hdisj a ha])
      have h2 : [r].filter (fun x => !(x.key == r.key)) = [] := by
        simp
      rw [h1, h2, List.append_nil]
    have hdrop : t.rows.dropLast = l := by
      rw [hl, List.dropLast_concat]
    rw [hfilter, hdrop]

theorem popitem_last_entry_witness :
    popitem (insertSeq Table.empty
        [(Lit.int 1, [Lit.int 10]), (Lit.int 2, [Lit.int 20])]) =
      Except.ok (⟨[⟨1, Lit.int 1, [Lit.int 10]⟩], 3⟩,
        (Lit.int 2, [Lit.int 20])) := by
  exact (popitem_last_entry (insertSeq Table.empty
      [(Lit.int 1, [Lit.int 10]), (Lit.int 2, [Lit.int 20])])
    (by decide)).2 ⟨2, Lit.int 2, [Lit.int 20]⟩ rfl

/-- SET of a fresh key appends: afterwards the table contains exactly the
old keys plus the new one. -/
theorem tContains_tSet_fresh (t : Table) (k k2 : Lit) (vs : List Lit)
    (h : tContains t k = false) :
    tContains (tSet t k vs) k2 = (tContains t k2 || (k == k2)) := by
  unfold tContains at *
  unfold tSet
  simp [h, List.any_append]

/-- SET of a fresh key appends the key at the end of the iteration order. -/
theorem tIter_tSet_fresh (t : Table) (k : Lit) (vs : List Lit)
    (h : tContains t k = false) :
    tIter (tSet t k vs) = tIter t ++ [k] := by
  unfold tContains at h
  unfold tIter tSet
  simp [h]

/-- Inserting pairwise-distinct fresh keys appends them to the iteration
order in insertion order. -/
theorem insertSeq_iter_aux (ps : List (Lit × List Lit)) :
    ∀ t : Table, (∀ q ∈ ps, tContains t q.1 = false) →
      (ps.map Prod.fst).Nodup →
      tIter (insertSeq t ps) = tIter t ++ ps.map Prod.fst := by
  induction ps with
  | nil =>
    intro t _ _
    simp [insertSeq]
  | cons q ps ih =>
    intro t hfresh hnd
    have hq : tContains t q.1 = false := hfresh q (List.mem_cons_self q ps)
    have hstep : insertSeq t (q :: ps) = insertSeq (tSet t q.1 q.2) ps := rfl
    rw [List.map_cons, List.nodup_cons] at hnd
    have hfresh2 : ∀ p ∈ ps, tContains (tSet t q.1 q.2) p.1 = false := by
      intro p hp
      rw [tContains_tSet_fresh t q.1 p.1 q.2 hq]
      have h1 : tContains t p.1 = false := hfresh p (List.mem_cons_of_mem q hp)
      have h2 : (q.1 == p.1) = false := by
        cases hb : q.1 == p.1
        · rfl
        · exact absurd (by rw [eq_of_beq hb]; exact List.mem_map_of_mem Prod.fst hp)
            hnd.1
      rw [h1, h2]
      rfl
    rw [hstep, ih (tSet t q.1 q.2) hfresh2 hnd.2, tIter_tSet_fresh t q.1 q.2 hq,
      List.map_cons, List.append_assoc, List.singleton_append]

/-- Claim C7 amended: for every store whose key column is not an INTEGER
PRIMARY KEY — any store not constructed with key_type=int, so that fresh
inserts receive fresh monotone rowids — inserting distinct keys k1..kn in
order into a fresh store (no deletions, no upserts of existing keys) makes
iterate() yield exactly [k1, ..., kn] and reverse_iterate() exactly its
reverse.  For a key_type=int store the claim fails: _key aliases the
rowid, so iteration follows integer key order (see the counterexample on
the tSetInt model). -/
theorem iterate_insertion_order (ps : List (Lit × List Lit))
    (hnd : (ps.map Prod.fst).Nodup) :
    tIter (insertSeq Table.empty ps) = ps.map Prod.fst ∧
    tReversed (insertSeq Table.empty ps) = (ps.map Prod.fst).reverse := by
  have h1 := insertSeq_iter_aux ps Table.empty (fun q _ => rfl) hnd
  have hrev : tReversed (insertSeq Table.empty ps)
      = (tIter (insertSeq Table.empty ps)).reverse := rfl
  rw [hrev, h1]
  exact ⟨rfl, rfl⟩

theorem iterate_insertion_order_witness :
    tIter (insertSeq Table.empty
        [(Lit.int 1, [Lit.int 10]), (Lit.int 2, [Lit.int 20])]) =
      [Lit.int 1, Lit.int 2] ∧
    tReversed (insertSeq Table.empty
        [(Lit.int 1, [Lit.int 10]), (Lit.int 2, [Lit.int 20])]) =
      [Lit.int 2, Lit.int 1] :=
  iterate_insertion_order
    [(Lit.int 1, [Lit.int 10]), (Lit.int 2, [Lit.int 20])] (by decide)

/-- Claim C7 counterexample: in a store created with key_type=int the key
column aliases the rowid, so inserting the distinct keys 5 then 3 into a
fresh store yields iterate() = [3, 5] — ascending key order — and not the
claimed insertion order [5, 3]. -/
theorem iterate_insertion_order_cex :
    tIterInt (insertSeqInt []
        [((5 : Int), [Lit.int 50]), ((3 : Int), [Lit.int 30])]) = [3, 5] ∧
    tIterInt (insertSeqInt []
        [((5 : Int), [Lit.int 50]), ((3 : Int), [Lit.int 30])]) ≠
      [5, 3] := by
  refine ⟨rfl, by decide⟩

/-- A key the CONTAINS statement does not see has no GET row either. -/
theorem tGet_eq_none_of_not_contains (t : Table) (k : Lit)
    (h : tContains t k = false) : tGet t k = none := by
  unfold tContains at h
  unfold tGet
  have hnone : t.rows.find? (fun r => r.key == k) = none := by
    rw [List.find?_eq_none]
    intro x hx hpx
    have hany : t.rows.any (fun r => r.key == k) = true :=
      List.any_eq_true.mpr ⟨x, hx, hpx⟩
    rw [h] at hany
    exact Bool.false_ne_true hany
  rw [hnone]
  rfl

/-- Claim C8 counterexample: update() performs no value validation.  With a
supplied value that is not an instance of the declared value class (but of
matching arity), update succeeds and changes the store — no TypeError-class
error is raised — even though the validator used by the other write paths
rejects the same value (with ValueError, moreover, not a TypeError). -/
theorem update_skips_validation_cex :
    update Table.empty [(Lit.text "k", ⟨[Lit.int 5], false⟩)] =
      Except.ok ⟨[⟨1, Lit.text "k", [Lit.int 5]⟩], 2⟩ ∧
    validate_value ⟨[Lit.int 5], false⟩ = Except.error Err.valueError ∧
    Err.valueError ≠ Err.typeError := by
  refine ⟨rfl, rfl, by decide⟩

/-- Claim C8 amended: when the supplied value is not an instance of the
declared value class, set, add, and setdefault-with-a-non-null-default on
an absent key raise ValueError (not a TypeError subclass) and leave the
store unchanged, while update performs no validation at all: it executes
its SET statements and the unvalidated value becomes visible. -/
theorem write_validation_amended (t : Table) (k : Lit) (v : PyValue)
    (hv : v.isInstance = false) :
    setitem t k v = Except.error Err.valueError ∧
    add t (some k) v = Except.error Err.valueError ∧
    (tContains t k = false →
      setdefault t k (some v) = Except.error Err.valueError) ∧
    update t [(k, v)] = Except.ok (tSet t k v.fields) ∧
    tContains (tSet t k v.fields) k = true := by
  refine ⟨?_, ?_, ?_, rfl, tContains_tSet_self t k v.fields⟩
  · unfold setitem validate_value
    simp [hv]
  · unfold add validate_value
    simp [hv]
  · intro habs
    unfold setdefault
    rw [tGet_eq_none_of_not_contains t k habs]
    unfold validate_value
    simp [hv]

theorem write_validation_amended_witness :
    setitem Table.empty (Lit.text "k") ⟨[Lit.int 5], false⟩ =
      Except.error Err.valueError ∧
    setdefault Table.empty (Lit.text "k") (some ⟨[Lit.int 5], false⟩) =
      Except.error Err.valueError := by
  have h := write_validation_amended Table.empty (Lit.text "k")
    ⟨[Lit.int 5], false⟩ rfl
  exact ⟨h.1, h.2.2.1 rfl⟩

/-- Claim C9: schema derivation fails (the error the spec's taxonomy calls
SchemaError, realized in the source as a ValueError raise) exactly when a
field name equals the reserved key column name; with no collision it
succeeds side-effect-free, and a field without a type annotation gets the
BLOB storage type. -/
theorem schema_derivation (vc : ValueClass) :
    ("_key" ∈ vc.fields → get_fields vc = Except.error Err.valueError) ∧
    ("_key" ∉ vc.fields → get_fields vc = Except.ok vc.fields) ∧
    (∀ (i : Nat) (name : String), vc.fields[i]? = some name →
      vc.annotations.find? (fun p => p.1 == name) = none →
      (get_field_types vc)[i]? = some "BLOB") := by
  refine ⟨?_, ?_, ?_⟩
  · intro h
    unfold get_fields
    simp [h]
  · intro h
    unfold get_fields
    simp [h]
  · intro i name hi hann
    unfold get_field_types
    by_cases hA : vc.annotations.isEmpty
    · simp only [hA, Bool.not_true, Bool.false_eq_true, if_false]
      rw [List.getElem?_map, hi]
      rfl
    · have hA2 : vc.annotations.isEmpty = false := by
        cases hb : vc.annotations.isEmpty
        · rfl
        · exact absurd hb hA
      simp only [hA2, Bool.not_false, if_true]
      rw [List.getElem?_map, hi]
      simp only [Option.map_some']
      unfold annGet
      rw [hann]
      rfl

theorem schema_derivation_witness :
    get_fields ⟨["_key", "value"], []⟩ = Except.error Err.valueError ∧
    get_fields ⟨["value"], []⟩ = Except.ok ["value"] ∧
    (get_field_types ⟨["value"], [("other", PyType.strT)]⟩)[0]? =
      some "BLOB" := by
  refine ⟨?_, ?_, ?_⟩
  · exact (schema_derivation ⟨["_key", "value"], []⟩).1 (by decide)
  · exact (schema_derivation ⟨["value"], []⟩).2.1 (by decide)
  · exact (schema_derivation ⟨["value"], [("other", PyType.strT)]⟩).2.2 0
      "value" rfl (by decide)

/-- Claim C10: the effective table name equals the supplied tablename,
except that a missing tablename and the supplied name "_Settings" both
silently fall back to the value class's name. -/
theorem tablename_selection (n t : String) :
    effective_tablename n none = n ∧
    effective_tablename n (some "_Settings") = n ∧
    (t ≠ "_Settings" → effective_tablename n (some t) = t) := by
  refine ⟨rfl, ?_, ?_⟩
  · unfold effective_tablename
    simp
  · intro h
    unfold effective_tablename
    simp [h]

theorem tablename_selection_witness :
    effective_tablename "Value" none = "Value" ∧
    effective_tablename "Value" (some "_Settings") = "Value" ∧
    effective_tablename "Value" (some "Cache") = "Cache" := by
  have h := tablename_selection "Value" "Cache"
  exact ⟨h.1, h.2.1, h.2.2 (by decide)⟩

/-- Inside an open transaction owned by tid (pending view present, _txn_id
= tid), running any script leaves the committed table untouched, keeps the
transaction open and owned, and issues no real transaction-control
statement to the engine. -/
theorem run_in_txn (tid : Nat) (p : Stmt) :
    ∀ s : DBState, s.txnId = some tid → s.pending.isSome = true →
      (run tid p s).1.committed = s.committed ∧
      (run tid p s).1.txnId = some tid ∧
      (run tid p s).1.pending.isSome = true ∧
      (run tid p s).2.2 = ([] : List TxnEvent) := by
  induction p with
  | write w =>
    intro s ht hp
    simp only [run]
    unfold execWrite
    cases hpe : s.pending with
    | none =>
      rw [hpe] at hp
      simp at hp
    | some tp => simp [ht]
  | raiseE =>
    intro s ht hp
    simp only [run]
    simp [ht, hp]
  | seq a b iha ihb =>
    intro s ht hp
    obtain ⟨h1c, h1t, h1p, h1e⟩ := iha s ht hp
    obtain ⟨h2c, h2t, h2p, h2e⟩ := ihb (run tid a s).1 h1t h1p
    simp only [run]
    by_cases he : (run tid a s).2.1 = true
    · simp only [he, if_true]
      exact ⟨h1c, h1t, h1p, h1e⟩
    · rw [Bool.not_eq_true] at he
      simp only [he, Bool.false_eq_true, if_false]
      refine ⟨by rw [h2c, h1c], h2t, h2p, by rw [h1e, h2e]; rfl⟩
  | scope body ih =>
    intro s ht hp
    simp only [run]
    rw [if_pos ht]
    exact ih s ht hp

/-- Claim C2: an exception raised inside a transact scope makes the
outermost scope issue a real ROLLBACK before the exception propagates, and
afterwards none of the scope's writes are visible: the store state equals
the state from before the scope began. -/
theorem transact_rollback_on_error (tid : Nat) (body : Stmt) (c : Table)
    (s1 : DBState) (tr : List TxnEvent)
    (h : run tid (Stmt.scope body) ⟨c, none, none⟩ = (s1, true, tr)) :
    s1 = ⟨c, none, none⟩ ∧ tr.getLast? = some TxnEvent.rollbackEvt := by
  have hne : ¬((⟨c, none, none⟩ : DBState).txnId = some tid) := by simp
  obtain ⟨hc, htx, hpd, hev⟩ :=
    run_in_txn tid body ⟨c, some c, some tid⟩ rfl rfl
  simp only [run] at h
  rw [if_neg hne] at h
  by_cases he : (run tid body ⟨c, some c, some tid⟩).2.1 = true
  · simp only [he, if_true] at h
    have hs1 := congrArg Prod.fst h
    have htr := congrArg (fun x => x.2.2) h
    simp only at hs1 htr
    rw [hc] at hs1
    rw [hev] at htr
    constructor
    · rw [← hs1]
    · rw [← htr]
      rfl
  · rw [Bool.not_eq_true] at he
    simp only [he, Bool.false_eq_true, if_false] at h
    have hcontra := congrArg (fun x => x.2.1) h
    simp only at hcontra
    exact absurd hcontra Bool.false_ne_true

theorem transact_rollback_on_error_witness :
    (⟨Table.empty, none, none⟩ : DBState) = ⟨Table.empty, none, none⟩ ∧
    [TxnEvent.beginEvt, TxnEvent.rollbackEvt].getLast? =
      some TxnEvent.rollbackEvt :=
  transact_rollback_on_error 1
    (Stmt.seq (Stmt.write (WriteOp.setW (Lit.int 10) [Lit.int 1]))
      Stmt.raiseE)
    Table.empty ⟨Table.empty, none, none⟩
    [TxnEvent.beginEvt, TxnEvent.rollbackEvt] (by rfl)

/-- Claim C3: per (store, thread) the transaction protocol is Idle → begin
→ Active → (commit | rollback) → Idle.  A scope entered from Idle issues
exactly one real BEGIN followed by exactly one real COMMIT (no exception)
or ROLLBACK (exception) and ends Idle with no transaction open; a scope
entered by a thread that is already Active equals running its body
directly — it issues no real begin/commit/rollback of its own, so nested
scopes share the outer transaction's fate. -/
theorem transact_state_machine (tid : Nat) (body : Stmt) (s : DBState) :
    (s.txnId = some tid →
      run tid (Stmt.scope body) s = run tid body s ∧
      (s.pending.isSome = true → (run tid body s).2.2 = [])) ∧
    (s.txnId = none →
      (run tid (Stmt.scope body) s).1.txnId = none ∧
      (run tid (Stmt.scope body) s).1.pending = none ∧
      (run tid (Stmt.scope body) s).2.2 =
        (if (run tid (Stmt.scope body) s).2.1 = true then
          [TxnEvent.beginEvt, TxnEvent.rollbackEvt]
        else
          [TxnEvent.beginEvt, TxnEvent.commitEvt])) := by
  constructor
  · intro ht
    constructor
    · simp only [run]
      rw [if_pos ht]
    · intro hp
      exact (run_in_txn tid body s ht hp).2.2.2
  · intro ht
    have hne : ¬(s.txnId = some tid) := by
      rw [ht]
      simp
    obtain ⟨hc, htx, hpd, hev⟩ :=
      run_in_txn tid body ⟨s.committed, some s.committed, some tid⟩ rfl rfl
    simp only [run]
    rw [if_neg hne]
    by_cases he : (run tid body ⟨s.committed, some s.committed, some tid⟩).2.1
      = true
    · simp only [he, if_true]
      simp [hev]
    · rw [Bool.not_eq_true] at he
      simp only [he, Bool.false_eq_true, if_false]
      simp [hev]

theorem transact_state_machine_witness :
    run 1 (Stmt.scope (Stmt.write (WriteOp.setW (Lit.int 3) [Lit.int 4])))
        ⟨Table.empty, some Table.empty, some 1⟩ =
      run 1 (Stmt.write (WriteOp.setW (Lit.int 3) [Lit.int 4]))
        ⟨Table.empty, some Table.empty, some 1⟩ ∧
    (run 1 (Stmt.scope (Stmt.write (WriteOp.setW (Lit.int 3) [Lit.int 4])))
        ⟨Table.empty, none, none⟩).2.2 =
      [TxnEvent.beginEvt, TxnEvent.commitEvt] := by
  constructor
  · exact ((transact_state_machine 1
      (Stmt.write (WriteOp.setW (Lit.int 3) [Lit.int 4]))
      ⟨Table.empty, some Table.empty, some 1⟩).1 rfl).1
  · have h := ((transact_state_machine 1
      (Stmt.write (WriteOp.setW (Lit.int 3) [Lit.int 4]))
      ⟨Table.empty, none, none⟩).2 rfl).2.2
    rw [h]
    rfl

/-- Characterization of the source's BEGIN retry loop under contention
that clears after n attempts: with retry requested it keeps retrying every
SLEEP_MS until the TIMEOUT_MS deadline, succeeding at attempt n when that
happens before the deadline and raising BusyError at the deadline
otherwise. -/
theorem beginLoop_busyUntil_eval (n : Nat) :
    ∀ (m i : Nat), TIMEOUT_MS - i = m → i ≤ TIMEOUT_MS →
      beginLoop (busyUntil n) true i =
        (if n ≤ i then Except.ok i
         else if n ≤ TIMEOUT_MS then Except.ok n
         else Except.error TIMEOUT_MS) := by
  intro m
  induction m with
  | zero =>
    intro i h0 hle
    have hi : i = TIMEOUT_MS := by omega
    subst hi
    rw [beginLoop]
    by_cases hn : n ≤ TIMEOUT_MS
    · have hb : busyUntil n TIMEOUT_MS = false := by
        unfold busyUntil
        simp only [decide_eq_false_iff_not]
        omega
      simp [hb, hn]
    · have hb : busyUntil n TIMEOUT_MS = true := by
        unfold busyUntil
        simp only [decide_eq_true_eq]
        omega
      have hcond : ¬(true = true ∧ SLEEP_MS * TIMEOUT_MS < TIMEOUT_MS) := by
        simp [SLEEP_MS]
      rw [hb, if_pos rfl, dif_neg hcond]
      simp [hn]
  | succ m ih =>
    intro i h0 hle
    have hilt : i < TIMEOUT_MS := by omega
    rw [beginLoop]
    by_cases hni : n ≤ i
    · have hb : busyUntil n i = false := by
        unfold busyUntil
        simp only [decide_eq_false_iff_not]
        omega
      simp [hb, hni]
    · have hb : busyUntil n i = true := by
        unfold busyUntil
        simp only [decide_eq_true_eq]
        omega
      have hcond : (true = true ∧ SLEEP_MS * i < TIMEOUT_MS) := by
        refine ⟨rfl, ?_⟩
        simp only [SLEEP_MS, one_mul]
        exact hilt
      rw [hb, if_pos rfl, dif_pos hcond, ih (i + 1) (by omega) (by omega)]
      by_cases hni1 : n ≤ i + 1
      · have hn : n = i + 1 := by omega
        have hnle : n ≤ TIMEOUT_MS := by omega
        simp [hni1, hni, hn, hnle]
        rw [if_pos (show i + 1 ≤ TIMEOUT_MS by omega)]
      · simp [hni1, hni]

/-- Claim C1 amended: the retry deadline of transact is the module
constant TIMEOUT (60 s, i.e. TIMEOUT_MS sleep intervals of 1 ms), not the
store's configured timeout — the loop never reads the configured timeout.
With retry requested and contention clearing after n attempts, begin
succeeds at attempt n when n is at most the deadline window and raises
BusyError exactly at the deadline otherwise; with retry=False the first
BusyError propagates immediately. -/
theorem transact_retry_fixed_deadline (n : Nat) :
    beginLoop (busyUntil n) true 0 =
      (if n ≤ TIMEOUT_MS then Except.ok n else Except.error TIMEOUT_MS) ∧
    beginLoop (busyUntil n) false 0 =
      (if n = 0 then Except.ok 0 else Except.error 0) := by
  constructor
  · have h := beginLoop_busyUntil_eval n (TIMEOUT_MS - 0) 0 rfl (by omega)
    rw [h]
    by_cases h0 : n ≤ 0
    · have hn : n = 0 := by omega
      subst hn
      simp
    · simp [h0]
  · rw [beginLoop]
    by_cases h0 : n = 0
    · subst h0
      have hb : busyUntil 0 0 = false := by
        unfold busyUntil
        simp
      simp [hb]
    · have hb : busyUntil n 0 = true := by
        unfold busyUntil
        simp only [decide_eq_true_eq]
        omega
      have hcond : ¬(false = true ∧ SLEEP_MS * 0 < TIMEOUT_MS) := by
        simp
      simp [hb, hcond, h0]

/-- Claim C1 counterexample: with the store's configured timeout at 1 ms
and contention clearing at the third attempt, the loop as the claim states
it (deadline = the store's configured timeout) raises BusyError at attempt
1, while the source's loop (deadline = the module constant TIMEOUT,
regardless of the configured timeout) keeps retrying and succeeds at
attempt 2 — so the claimed deadline is not the one the code uses. -/
theorem transact_retry_deadline_cex :
    beginLoop (busyUntil 2) true 0 = Except.ok 2 ∧
    beginLoopSpec 1 (busyUntil 2) true 0 = Except.error 1 := by
  constructor
  · rw [beginLoop, show busyUntil 2 0 = true from rfl, if_pos rfl,
      dif_pos (show true = true ∧ SLEEP_MS * 0 < TIMEOUT_MS from by
        simp [SLEEP_MS, TIMEOUT_MS])]
    rw [beginLoop, show busyUntil 2 (0 + 1) = true from rfl, if_pos rfl,
      dif_pos (show true = true ∧ SLEEP_MS * (0 + 1) < TIMEOUT_MS from by
        simp [SLEEP_MS, TIMEOUT_MS])]
    rw [beginLoop, show busyUntil 2 (0 + 1 + 1) = false from rfl,
      if_neg (show ¬(false = true) from by simp)]
  · rw [beginLoopSpec, show busyUntil 2 0 = true from rfl, if_pos rfl,
      dif_pos (show true = true ∧ SLEEP_MS * 0 < 1 from by simp [SLEEP_MS])]
    rw [beginLoopSpec, show busyUntil 2 (0 + 1) = true from rfl, if_pos rfl,
      dif_neg (show ¬(true = true ∧ SLEEP_MS * (0 + 1) < 1) from by
        simp [SLEEP_MS])]

end Diskstore
